import Mathlib

/-!
Verification development for the agri-ESG scoring pipeline.

The source pipeline has three layers:
  * a KPI calculator (`compute_kpis` in `agri_esg_dashboard.py` and
    `utils/calculations.py`) that derives per-record intensities and
    emissions with a zero-as-missing substitution on denominator columns;
  * a percentile scorer (`percentile_score`, identical in both files):
    pandas average-rank percentile ranking with a neutral-50 branch when a
    column has at most one distinct non-missing value;
  * an ESG scoring engine (`compute_esg_scores` in `utils/calculations.py`)
    that averages per-metric percentile scores into pillar scores and a
    0.5/0.3/0.2 weighted composite, plus a categorical governance scorer in
    `farm_esg_analysis.py`.

Cells of a pandas object column are embedded as `Cell` (a rational number,
NaN, or a Python string); numeric columns after the KPI stage are embedded
as `List (Option Rat)` with `none` for NaN.  Exact rationals replace IEEE
floats: every computation the theorems touch (ranking, rounding to one
decimal, means, weighted sums) is exact at these magnitudes.
-/

/-- One cell of a raw input column: a number, a missing value (NaN), or a
non-numeric Python string as it would sit in a pandas object column. -/
inductive Cell where
  | num (q : ℚ)
  | nan
  | strv (s : String)
deriving DecidableEq

/-- Source: `df[col].replace(0, np.nan)` — replaces an exact numeric zero
with NaN and leaves every other cell (including strings) unchanged. -/
def zeroToNan : Cell → Cell
  | .num q => if q = 0 then .nan else .num q
  | c => c

/-- Multiplication of a cell by a float constant, as Python evaluates it:
NaN propagates, a string operand raises a TypeError (the emission factors
are floats, so string repetition cannot occur). -/
def cellMul (c : Cell) (k : ℚ) : Except String Cell :=
  match c with
  | .num q => .ok (.num (q * k))
  | .nan => .ok .nan
  | .strv _ => .error "TypeError"

/-- Cell division as Python evaluates it: a string operand raises a
TypeError, NaN propagates.  Every division in the source is taken against a
denominator column that has just had exact zeros replaced by NaN, so a zero
denominator never reaches the numeric case. -/
def cellDiv : Cell → Cell → Except String Cell
  | .strv _, _ => .error "TypeError"
  | _, .strv _ => .error "TypeError"
  | .nan, _ => .ok .nan
  | _, .nan => .ok .nan
  | .num a, .num b => .ok (.num (a / b))

/-- Cell addition as Python evaluates it on the outputs of the emission
multiplications: NaN propagates; the string cases are unreachable there
because `cellMul` has already raised on any string. -/
def cellAdd : Cell → Cell → Except String Cell
  | .strv _, _ => .error "TypeError"
  | _, .strv _ => .error "TypeError"
  | .nan, _ => .ok .nan
  | _, .nan => .ok .nan
  | .num a, .num b => .ok (.num (a + b))

/-- Emission factor for nitrogen fertilizer (kg CO2e per kg N). -/
def EF_N : ℚ := 5.5
/-- Emission factor for diesel (kg CO2e per litre). -/
def EF_DIESEL : ℚ := 2.7
/-- Emission factor for electricity (kg CO2e per kWh). -/
def EF_ELEC : ℚ := 0.5

/-- One raw input record of `agri_esg_dashboard.py` (numeric columns only;
identifier columns play no part in the KPI arithmetic). -/
structure InRow where
  area_ha : Cell
  yield_tonnes : Cell
  fertilizer_n_kg : Cell
  diesel_litres : Cell
  electricity_kwh : Cell
  water_m3 : Cell
  workers_total : Cell
  workers_female : Cell
  accidents_count : Cell
deriving DecidableEq

/-- The derived KPI columns `compute_kpis` adds to a record. -/
structure KpiRow where
  yield_per_ha : Cell
  n_per_ha : Cell
  water_per_tonne : Cell
  emissions_fertilizer : Cell
  emissions_diesel : Cell
  emissions_electric : Cell
  total_emissions : Cell
  emissions_per_tonne : Cell
  emissions_per_ha : Cell
  female_share : Cell
  accidents_per_100_workers : Cell
deriving DecidableEq

/-- `compute_kpis` of `agri_esg_dashboard.py` restricted to one record, in
the source's operation order.  The source applies each operation to the
whole column at once; since every operation is element-wise, the per-record
results agree, and an error in any cell aborts the whole call in both
presentations. -/
def compute_kpis_row (r : InRow) : Except String KpiRow := do
  let area := zeroToNan r.area_ha
  let yld := zeroToNan r.yield_tonnes
  let wkt := zeroToNan r.workers_total
  let yield_per_ha ← cellDiv yld area
  let n_per_ha ← cellDiv r.fertilizer_n_kg area
  let water_per_tonne ← cellDiv r.water_m3 yld
  let emissions_fertilizer ← cellMul r.fertilizer_n_kg EF_N
  let emissions_diesel ← cellMul r.diesel_litres EF_DIESEL
  let emissions_electric ← cellMul r.electricity_kwh EF_ELEC
  let s1 ← cellAdd emissions_fertilizer emissions_diesel
  let total_emissions ← cellAdd s1 emissions_electric
  let emissions_per_tonne ← cellDiv total_emissions yld
  let emissions_per_ha ← cellDiv total_emissions area
  let female_share ← cellDiv r.workers_female wkt
  let acc ← cellDiv r.accidents_count wkt
  let accidents_per_100_workers ← cellMul acc 100
  return {
    yield_per_ha := yield_per_ha
    n_per_ha := n_per_ha
    water_per_tonne := water_per_tonne
    emissions_fertilizer := emissions_fertilizer
    emissions_diesel := emissions_diesel
    emissions_electric := emissions_electric
    total_emissions := total_emissions
    emissions_per_tonne := emissions_per_tonne
    emissions_per_ha := emissions_per_ha
    female_share := female_share
    accidents_per_100_workers := accidents_per_100_workers }

/-- `compute_kpis` over a batch: the source computes column-wise over the
whole frame, so any cell-level TypeError aborts the whole call with no
partial output; this row recursion reproduces exactly that
all-or-error behaviour. -/
def compute_kpis : List InRow → Except String (List KpiRow)
  | [] => .ok []
  | r :: rest => do
    let k ← compute_kpis_row r
    let ks ← compute_kpis rest
    return k :: ks

/-- One raw field-month record of `utils/calculations.py` (numeric columns
used by its `compute_kpis`). -/
structure FieldRow where
  field_area_ha : Cell
  fertiliser_kgN : Cell
  fertiliser_kgP2O5 : Cell
  fertiliser_kgK2O : Cell
  diesel_litres : Cell
  labour_hours : Cell
deriving DecidableEq

/-- The derived KPI columns of `utils/calculations.py` `compute_kpis`. -/
structure FieldKpiRow where
  n_per_ha : Cell
  p_per_ha : Cell
  k_per_ha : Cell
  emissions_fertilizer : Cell
  emissions_diesel : Cell
  total_emissions : Cell
  emissions_per_ha : Cell
  labour_hours_per_ha : Cell
deriving DecidableEq

/-- `compute_kpis` of `utils/calculations.py` restricted to one record, in
the source's operation order (that variant has no electricity column and
replaces zeros only in `field_area_ha`). -/
def compute_kpis_field_row (r : FieldRow) : Except String FieldKpiRow := do
  let area := zeroToNan r.field_area_ha
  let n_per_ha ← cellDiv r.fertiliser_kgN area
  let p_per_ha ← cellDiv r.fertiliser_kgP2O5 area
  let k_per_ha ← cellDiv r.fertiliser_kgK2O area
  let emissions_fertilizer ← cellMul r.fertiliser_kgN EF_N
  let emissions_diesel ← cellMul r.diesel_litres EF_DIESEL
  let total_emissions ← cellAdd emissions_fertilizer emissions_diesel
  let emissions_per_ha ← cellDiv total_emissions area
  let labour_hours_per_ha ← cellDiv r.labour_hours area
  return {
    n_per_ha := n_per_ha
    p_per_ha := p_per_ha
    k_per_ha := k_per_ha
    emissions_fertilizer := emissions_fertilizer
    emissions_diesel := emissions_diesel
    total_emissions := total_emissions
    emissions_per_ha := emissions_per_ha
    labour_hours_per_ha := labour_hours_per_ha }

/-- A numeric column after the KPI stage: one entry per record, `none` for
NaN. -/
abbrev Col := List (Option ℚ)

/-- `series.dropna()`: the non-missing values of a column in order. -/
def nonMissing (col : Col) : List ℚ := col.filterMap id

/-- `series.dropna().nunique()`: the number of distinct non-missing
values. -/
def nunique (col : Col) : ℕ := (nonMissing col).dedup.length

/-- `series.rank(pct=True)` at a non-missing value `v`: the pandas average
rank of `v` among the non-missing values — the count of strictly smaller
values plus half of (tie-group size + 1) — divided by the number of
non-missing values. -/
def rank_pct (col : Col) (v : ℚ) : ℚ :=
  (((nonMissing col).countP (fun x => decide (x < v)) : ℚ) +
      (((nonMissing col).countP (fun x => decide (x = v)) : ℚ) + 1) / 2) /
    ((nonMissing col).length : ℚ)

/-- Rounding to the nearest integer, ties to even — numpy's rounding mode,
which pandas `Series.round` uses. -/
def round_half_even (q : ℚ) : ℤ :=
  if q - ⌊q⌋ = 1 / 2 then (if ⌊q⌋ % 2 = 0 then ⌊q⌋ else ⌊q⌋ + 1) else round q

/-- `.round(1)`: round to one decimal place, ties to even. -/
def round1 (q : ℚ) : ℚ := ((round_half_even (q * 10) : ℤ) : ℚ) / 10

/-- The per-value score in the ranking branch of `percentile_score`:
`rank * 100` when higher is better, `(1 - rank) * 100` when lower is
better, rounded to one decimal. -/
def score_fn (col : Col) (higher_is_better : Bool) (v : ℚ) : ℚ :=
  round1 ((if higher_is_better then rank_pct col v else 1 - rank_pct col v) * 100)

/-- `percentile_score` (identical in `agri_esg_dashboard.py` and
`utils/calculations.py`): if the column has at most one distinct
non-missing value, every entry — missing entries included — becomes the
neutral 50 (`pd.Series(50, index=s.index)`); otherwise each non-missing
entry is scored from its average-rank percentile and each missing entry
keeps NaN (pandas ranks NaN as NaN, and NaN stays NaN through the
arithmetic and the rounding). -/
def percentile_score (col : Col) (higher_is_better : Bool) : Col :=
  if nunique col ≤ 1 then col.map (fun _ => some 50)
  else col.map (fun o => o.map (score_fn col higher_is_better))

/-- A batch at the scoring-engine boundary: the column names present in the
frame, and one association list of cells per record (`none` is NaN; a name
absent from a record's list is an absent column). -/
structure DF where
  cols : List String
  rows : List (List (String × Option ℚ))
deriving DecidableEq

/-- Read one named column of the batch. -/
def DF.col (df : DF) (c : String) : Col :=
  df.rows.map (fun r => (r.lookup c).join)

/-- Source: `col in result.columns`. -/
def DF.hasCol (df : DF) (c : String) : Bool := df.cols.contains c

/-- The environment metric list of `compute_esg_scores` in
`utils/calculations.py`, in source insertion order: each entry is a column
name with its direction (`true` = higher is better), optional columns
included only when present in the frame. -/
def env_metrics (df : DF) : List (String × Bool) :=
  [("emissions_per_ha", false), ("n_per_ha", false), ("pesticide_use_rate", false)] ++
    (if df.hasCol "hedgerow_length_m" then [("hedgerow_length_m", true)] else []) ++
    (if df.hasCol "wildflower_area_ha" then [("wildflower_area_ha", true)] else []) ++
    (if df.hasCol "soil_organic_matter_pct" then [("soil_organic_matter_pct", true)] else []) ++
    (if df.hasCol "cover_crop_planted_yes_no" then [("cover_crop_planted_yes_no", true)] else [])

/-- The social metric list of `compute_esg_scores` in
`utils/calculations.py`. -/
def soc_metrics (df : DF) : List (String × Bool) :=
  [("labour_hours_per_ha", true)] ++
    (if df.hasCol "labour_hs_training_done_yes_no" then
      [("labour_hs_training_done_yes_no", true)] else []) ++
    (if df.hasCol "worker_contracts_formalised_yes_no" then
      [("worker_contracts_formalised_yes_no", true)] else [])

/-- The governance metric list of `compute_esg_scores` in
`utils/calculations.py`. -/
def gov_metrics (df : DF) : List (String × Bool) :=
  [("sfi_soil_compliance_rate", true), ("sfi_nutrient_compliance_rate", true),
      ("sfi_hedgerow_compliance_rate", true)] ++
    (if df.hasCol "reduced_tillage_yes_no" then [("reduced_tillage_yes_no", true)] else []) ++
    (if df.hasCol "integrated_pest_management_yes_no" then
      [("integrated_pest_management_yes_no", true)] else [])

/-- `DataFrame.mean(axis=1)` on one row: the mean of the non-NaN entries,
NaN when every entry is NaN. -/
def row_mean (xs : List (Option ℚ)) : Option ℚ :=
  let v := xs.filterMap id
  if v.length = 0 then none else some (v.sum / (v.length : ℚ))

/-- One record's pillar score: the row mean, over the pillar's metric list,
of that record's per-metric percentile scores
(`pd.DataFrame(components, index=result.index)` followed by
`.mean(axis=1)`). -/
def pillar_score_at (df : DF) (ms : List (String × Bool)) (i : ℕ) : Option ℚ :=
  row_mean (ms.map (fun m => (percentile_score (df.col m.1) m.2).getD i none))

/-- The social pillar of `utils/calculations.py`: the source guards on
`len(soc_components) > 0` before averaging and otherwise writes the neutral
50 (the guard is always true there, since the employment metric is always
added, but it is kept as written). -/
def s_score_at (df : DF) (i : ℕ) : Option ℚ :=
  if 0 < (soc_metrics df).length then pillar_score_at df (soc_metrics df) i else some 50

/-- The four scores `compute_esg_scores` appends to a record. -/
structure ScoredRow where
  e_score : Option ℚ
  s_score : Option ℚ
  g_score : Option ℚ
  esg_score : Option ℚ
deriving DecidableEq

/-- `e * 0.5 + s * 0.3 + g * 0.2` with pandas NaN propagation: NaN in any
pillar makes the composite NaN. -/
def esg_combine (e s g : Option ℚ) : Option ℚ :=
  e.bind (fun a => s.bind (fun b => g.map (fun c => a * 0.5 + b * 0.3 + c * 0.2)))

/-- `compute_esg_scores` of `utils/calculations.py`: one `ScoredRow` per
input record.  The source contains no raise statement; every pandas
operation it performs is total, also on an empty frame, so the embedding is
a total function. -/
def compute_esg_scores (df : DF) : List ScoredRow :=
  (List.range df.rows.length).map (fun i =>
    let e := pillar_score_at df (env_metrics df) i
    let s := s_score_at df i
    let g := pillar_score_at df (gov_metrics df) i
    { e_score := e, s_score := s, g_score := g, esg_score := esg_combine e s g })

/-- Substring test on character lists: does the pattern occur
contiguously? -/
def subAt : List Char → List Char → Bool
  | [], _ => true
  | _ :: _, [] => false
  | a :: as, b :: bs => a == b && subAt as bs

/-- Does the pattern occur contiguously anywhere in the list? -/
def subList : List Char → List Char → Bool
  | pat, [] => subAt pat []
  | pat, c :: rest => subAt pat (c :: rest) || subList pat rest

/-- Python `s.lower()` on the decoded characters: character-wise ASCII
lowercasing, which on the certification labels this scorer inspects agrees
with Python's `str.lower`. -/
def pyLower (s : String) : List Char := s.toList.map Char.toLower

/-- Python's `pat in c` substring containment against the lowered text. -/
def strHas (c : List Char) (pat : String) : Bool := subList pat.toList c

/-- The categorical governance scorer of `farm_esg_analysis.py`
`compute_esg_scores`: lower-case the certification text, then map substring
matches to a fixed ordinal score. -/
def gov_score_of (cert : String) : ℚ :=
  let c := pyLower cert
  if strHas c "organic" || strHas c "leaf" then 100
  else if strHas c "red" then 80
  else if c ≠ "none".toList then 60
  else 40

/-- The `certification_scheme` cell of a row in `farm_esg_analysis.py`:
absent column, a float NaN (pandas missing value), or a string. -/
inductive CertCell where
  | absent
  | nanv
  | strv (s : String)
deriving DecidableEq

/-- `str(row.get("certification_scheme", "None"))`: the default `"None"`
when the column is absent, Python's `str(float('nan')) = "nan"` for a
missing cell, the string itself otherwise. -/
def cert_str : CertCell → String
  | .absent => "None"
  | .nanv => "nan"
  | .strv s => s

/-- The governance score of one row, a function of its certification cell
alone. -/
def row_gov_score (c : CertCell) : ℚ := gov_score_of (cert_str c)

/-- Modelled from the spec claim for comparison with the engine: the pillar
score as the mean of only those per-metric percentile scores whose metric
value is present (non-missing) for this record. -/
def claim_avail_pillar (df : DF) (ms : List (String × Bool)) (i : ℕ) : Option ℚ :=
  row_mean ((ms.filter (fun m => ((df.col m.1).getD i none).isSome)).map
    (fun m => (percentile_score (df.col m.1) m.2).getD i none))

/-- Modelled from the spec claim for comparison with the KPI calculator:
the total emissions with a missing component treated as zero. -/
def spec_total_emissions (r : InRow) : ℚ :=
  (match r.fertilizer_n_kg with | .num q => q | _ => 0) * EF_N +
    (match r.diesel_litres with | .num q => q | _ => 0) * EF_DIESEL +
    (match r.electricity_kwh with | .num q => q | _ => 0) * EF_ELEC

/-! Helper lemmas. -/

theorem dedup_len_le_one {l : List ℚ} (h : ∀ x ∈ l, ∀ y ∈ l, x = y) :
    l.dedup.length ≤ 1 := by
  match hd : l.dedup with
  | [] => simp
  | [a] => simp
  | a :: b :: t =>
    have ha : a ∈ l := List.mem_dedup.mp (hd ▸ List.mem_cons_self a (b :: t))
    have hb : b ∈ l :=
      List.mem_dedup.mp (hd ▸ List.mem_cons_of_mem a (List.mem_cons_self b t))
    have hnd := l.nodup_dedup
    rw [hd, List.nodup_cons] at hnd
    exact absurd (h a ha b hb) (fun e => hnd.1 (e ▸ List.mem_cons_self b t))

theorem mem_nonMissing_of_getD {col : Col} {i : ℕ} {v : ℚ}
    (h : col.getD i none = some v) : v ∈ nonMissing col := by
  rw [List.getD_eq_getD_get?] at h
  cases hg : col.get? i with
  | none => rw [hg] at h; simp at h
  | some o =>
    rw [hg] at h
    simp only [Option.getD_some] at h
    subst h
    exact List.mem_filterMap.mpr ⟨some v, List.get?_mem hg, rfl⟩

theorem percentile_entry (col : Col) (d : Bool) (i : ℕ) (hv : 2 ≤ nunique col) :
    (percentile_score col d).getD i none = (col.getD i none).map (score_fn col d) := by
  rw [percentile_score, if_neg (by omega)]
  rw [List.getD_eq_getD_get?, List.getD_eq_getD_get?, List.get?_map]
  cases h : col.get? i with
  | none => simp
  | some o => cases o <;> simp

theorem countP_lt_add_countP_eq {l : List ℚ} {v : ℚ} (h : ∀ x ∈ l, x ≤ v) :
    l.countP (fun x => decide (x < v)) + l.countP (fun x => decide (x = v)) = l.length := by
  induction l with
  | nil => simp
  | cons a t ih =>
    have ha := h a (List.mem_cons_self a t)
    have ht := ih (fun x hx => h x (List.mem_cons_of_mem a hx))
    rcases lt_or_eq_of_le ha with hlt | heq
    · simp only [List.countP_cons, decide_eq_true_eq, hlt, if_true, ne_of_lt hlt, if_false,
        List.length_cons]
      omega
    · subst heq
      simp only [List.countP_cons, decide_eq_true_eq, lt_irrefl, if_false, if_true,
        List.length_cons]
      omega

theorem round1_zero : round1 0 = 0 := by
  have h0 : round_half_even 0 = 0 := by
    rw [round_half_even]
    norm_num
  rw [round1]
  norm_num [h0]

/-- C2: if a metric column has at most one distinct non-missing value (a
constant column, a single non-missing value, a single-record batch, or an
all-missing column), `percentile_score` gives every record the neutral
score 50 for that metric, whatever the direction. -/
theorem percentile_score_no_variation (col : Col) (hib : Bool) (i : ℕ)
    (hconst : ∀ x ∈ nonMissing col, ∀ y ∈ nonMissing col, x = y)
    (hi : i < col.length) :
    (percentile_score col hib).getD i none = some 50 := by
  have h1 : nunique col ≤ 1 := dedup_len_le_one hconst
  rw [percentile_score, if_pos h1, List.getD_eq_getD_get?, List.get?_map,
    List.get?_eq_get hi]
  simp

theorem percentile_score_no_variation_witness :
    (percentile_score [some 5, none, some 5] false).getD 1 none = some 50 :=
  percentile_score_no_variation [some 5, none, some 5] false 1 (by decide) (by decide)

/-! Evaluation helpers for the ranking branch: the average rank of a unique
maximum, of a unique minimum, and the one-decimal rounding at concrete
values. -/

theorem rank_pct_eq_one {col : Col} {v : ℚ} (hvl : v ∈ nonMissing col)
    (hmax : ∀ x ∈ nonMissing col, x ≤ v)
    (hvone : (nonMissing col).countP (fun x => decide (x = v)) = 1) :
    rank_pct col v = 1 := by
  have hn : 0 < (nonMissing col).length :=
    List.length_pos.mpr (List.ne_nil_of_mem hvl)
  have hcv : (nonMissing col).countP (fun x => decide (x < v)) =
      (nonMissing col).length - 1 := by
    have := countP_lt_add_countP_eq hmax
    omega
  rw [rank_pct, hcv, hvone, Nat.cast_sub (by omega)]
  have hnq : ((nonMissing col).length : ℚ) ≠ 0 := Nat.cast_ne_zero.mpr (by omega)
  push_cast
  field_simp

theorem rank_pct_eq_inv (col : Col) (u : ℚ) (_hul : u ∈ nonMissing col)
    (hmin : ∀ x ∈ nonMissing col, u ≤ x)
    (huone : (nonMissing col).countP (fun x => decide (x = u)) = 1) :
    rank_pct col u = 1 / ((nonMissing col).length : ℚ) := by
  have hcu : (nonMissing col).countP (fun x => decide (x < u)) = 0 :=
    List.countP_eq_zero.mpr (fun x hx => by
      simp only [decide_eq_true_eq]
      exact not_lt.mpr (hmin x hx))
  rw [rank_pct, hcu, huone]
  push_cast
  norm_num

theorem score_fn_lower_max {col : Col} {v : ℚ} (hvl : v ∈ nonMissing col)
    (hmax : ∀ x ∈ nonMissing col, x ≤ v)
    (hvone : (nonMissing col).countP (fun x => decide (x = v)) = 1) :
    score_fn col false v = 0 := by
  rw [score_fn, rank_pct_eq_one hvl hmax hvone]
  have h : ((if (false : Bool) then (1 : ℚ) else 1 - 1) * 100) = 0 := by norm_num
  rw [h, round1_zero]

theorem entry_lower_max {col : Col} {i : ℕ} {v : ℚ} (hvar : 2 ≤ nunique col)
    (hiv : col.getD i none = some v)
    (hmax : ∀ x ∈ nonMissing col, x ≤ v)
    (hvone : (nonMissing col).countP (fun x => decide (x = v)) = 1) :
    (percentile_score col false).getD i none = some 0 := by
  rw [percentile_entry col false i hvar, hiv]
  simp only [Option.map_some']
  rw [score_fn_lower_max (mem_nonMissing_of_getD hiv) hmax hvone]

theorem entry_lower_min {col : Col} {j : ℕ} {u : ℚ} (hvar : 2 ≤ nunique col)
    (hju : col.getD j none = some u)
    (hmin : ∀ x ∈ nonMissing col, u ≤ x)
    (huone : (nonMissing col).countP (fun x => decide (x = u)) = 1) :
    (percentile_score col false).getD j none =
      some (round1 ((1 - 1 / ((nonMissing col).length : ℚ)) * 100)) := by
  rw [percentile_entry col false j hvar, hju]
  simp only [Option.map_some']
  rw [score_fn, rank_pct_eq_inv col u (mem_nonMissing_of_getD hju) hmin huone]
  norm_num

theorem round1_eq_of_lt (q : ℚ) (z : ℤ) (h1 : (z : ℚ) ≤ q * 10)
    (h2 : q * 10 < (z : ℚ) + 1 / 2) : round1 q = (z : ℚ) / 10 := by
  have hf : ⌊q * 10⌋ = z := by
    rw [Int.floor_eq_iff]
    exact ⟨h1, by push_cast; linarith⟩
  have hne : q * 10 - (⌊q * 10⌋ : ℚ) ≠ 1 / 2 := by
    rw [hf]; intro h; linarith
  have hr : round (q * 10) = z := by
    rw [round_eq, Int.floor_eq_iff]
    constructor
    · linarith
    · push_cast; linarith
  rw [round1, round_half_even, if_neg hne, hr]

theorem round1_eq_of_gt (q : ℚ) (z : ℤ) (h1 : (z : ℚ) + 1 / 2 < q * 10)
    (h2 : q * 10 < (z : ℚ) + 1) : round1 q = ((z : ℚ) + 1) / 10 := by
  have hf : ⌊q * 10⌋ = z := by
    rw [Int.floor_eq_iff]
    exact ⟨by linarith, by push_cast; linarith⟩
  have hne : q * 10 - (⌊q * 10⌋ : ℚ) ≠ 1 / 2 := by
    rw [hf]; intro h; linarith
  have hr : round (q * 10) = z + 1 := by
    rw [round_eq, Int.floor_eq_iff]
    constructor
    · push_cast; linarith
    · push_cast; linarith
  rw [round1, round_half_even, if_neg hne, hr]
  push_cast
  ring

/-- C1 counterexample: in the 3-record batch [100, 200, 300] scored
lower-is-better, the source's average-rank percentile gives the
minimum-value record 66.7 (its rank is 1/3, so (1 - 1/3) * 100) and the
middle record 33.3, not the 100.0 and 50.0 the claim states; only the
maximum-value record's 0.0 agrees. -/
theorem percentile_score_scenario :
    (percentile_score [some 100, some 200, some 300] false).getD 0 none =
        some (667 / 10) ∧
      (667 / 10 : ℚ) ≠ 100 ∧
      (percentile_score [some 100, some 200, some 300] false).getD 1 none =
        some (333 / 10) ∧
      (333 / 10 : ℚ) ≠ 50 ∧
      (percentile_score [some 100, some 200, some 300] false).getD 2 none =
        some 0 := by
  have hvar : 2 ≤ nunique [some 100, some 200, some 300] := by decide
  refine ⟨?_, by norm_num, ?_, by norm_num, ?_⟩
  · rw [percentile_entry _ false 0 hvar,
      show ([some 100, some 200, some 300] : Col).getD 0 none = some 100 from rfl]
    simp only [Option.map_some']
    rw [score_fn, rank_pct_eq_inv [some 100, some 200, some 300] 100
      (by decide) (by decide) (by decide)]
    rw [show ((nonMissing [some 100, some 200, some 300]).length : ℚ) = 3 from by decide]
    have h : ((if (false : Bool) then 1 / 3 else 1 - 1 / (3:ℚ)) * 100) = 200 / 3 := by
      norm_num
    rw [h, round1_eq_of_gt (200 / 3) 666 (by norm_num) (by norm_num)]
    norm_num
  · rw [percentile_entry _ false 1 hvar,
      show ([some 100, some 200, some 300] : Col).getD 1 none = some 200 from rfl]
    simp only [Option.map_some']
    rw [score_fn]
    have hr : rank_pct [some 100, some 200, some 300] 200 = 2 / 3 := by
      rw [rank_pct]
      rw [show (nonMissing [some 100, some 200, some 300]).countP
          (fun x => decide (x < 200)) = 1 from by decide]
      rw [show (nonMissing [some 100, some 200, some 300]).countP
          (fun x => decide (x = 200)) = 1 from by decide]
      rw [show ((nonMissing [some 100, some 200, some 300]).length : ℚ) = 3 from by decide]
      push_cast
      norm_num
    rw [hr]
    have h : ((if (false : Bool) then 2 / 3 else 1 - 2 / (3:ℚ)) * 100) = 100 / 3 := by
      norm_num
    rw [h, round1_eq_of_lt (100 / 3) 333 (by norm_num) (by norm_num)]
    norm_num
  · exact entry_lower_max (v := (300 : ℚ)) hvar (by decide) (by decide) (by decide)

/-- C1 as amended: in a batch whose metric column has at least two distinct
non-missing values, scoring lower-is-better gives the record holding the
unique maximum the per-metric score 0.0, and gives the record holding the
unique minimum round1((1 - 1/n) * 100), where n is the number of
non-missing values — strictly below 100 for every finite batch, not the
claimed 100.0. -/
theorem percentile_score_lower_extremes (col : Col) (i j : ℕ) (v u : ℚ)
    (hvar : 2 ≤ nunique col)
    (hiv : col.getD i none = some v)
    (hmax : ∀ x ∈ nonMissing col, x ≤ v)
    (hvone : (nonMissing col).countP (fun x => decide (x = v)) = 1)
    (hju : col.getD j none = some u)
    (hmin : ∀ x ∈ nonMissing col, u ≤ x)
    (huone : (nonMissing col).countP (fun x => decide (x = u)) = 1) :
    (percentile_score col false).getD i none = some 0 ∧
      (percentile_score col false).getD j none =
        some (round1 ((1 - 1 / ((nonMissing col).length : ℚ)) * 100)) :=
  ⟨entry_lower_max hvar hiv hmax hvone, entry_lower_min hvar hju hmin huone⟩

theorem percentile_score_lower_extremes_witness :
    (percentile_score [some 100, some 200, some 300] false).getD 2 none = some 0 ∧
      (percentile_score [some 100, some 200, some 300] false).getD 0 none =
        some (round1
          ((1 - 1 / ((nonMissing [some 100, some 200, some 300]).length : ℚ)) * 100)) :=
  percentile_score_lower_extremes [some 100, some 200, some 300] 2 0 (300 : ℚ) (100 : ℚ)
    (by decide) (by decide) (by decide) (by decide) (by decide) (by decide) (by decide)

/-- C3: for every record of every scored batch whose three pillar scores are
numeric, the composite equals 0.5 * E + 0.3 * S + 0.2 * G exactly (the
weighted sum is the last assignment of `compute_esg_scores` and is applied
to every row; a NaN pillar propagates NaN instead). -/
theorem esg_composite (df : DF) (i : ℕ) (r : ScoredRow)
    (hr : (compute_esg_scores df).get? i = some r)
    (a b c : ℚ) (ha : r.e_score = some a) (hb : r.s_score = some b)
    (hc : r.g_score = some c) :
    r.esg_score = some (a * 0.5 + b * 0.3 + c * 0.2) := by
  rw [compute_esg_scores, List.get?_map] at hr
  cases hk : (List.range df.rows.length).get? i with
  | none => rw [hk] at hr; simp at hr
  | some k =>
    rw [hk] at hr
    simp only [Option.map_some'] at hr
    injection hr with hr
    subst hr
    simp only at ha hb hc ⊢
    rw [esg_combine, ha, hb, hc]
    rfl

/-- A one-record batch holding the seven metric columns the scoring engine
always reads; every column is constant there, so every metric scores the
neutral 50. -/
def dfW : DF :=
  { cols := ["emissions_per_ha", "n_per_ha", "pesticide_use_rate",
      "labour_hours_per_ha", "sfi_soil_compliance_rate",
      "sfi_nutrient_compliance_rate", "sfi_hedgerow_compliance_rate"],
    rows := [[("emissions_per_ha", some 100), ("n_per_ha", some 10),
      ("pesticide_use_rate", some 0), ("labour_hours_per_ha", some 1),
      ("sfi_soil_compliance_rate", some 1), ("sfi_nutrient_compliance_rate", some 1),
      ("sfi_hedgerow_compliance_rate", some 1)]] }

theorem esg_composite_witness :
    ∃ r a b c, (compute_esg_scores dfW).get? 0 = some r ∧
      r.e_score = some a ∧ r.s_score = some b ∧ r.g_score = some c ∧
      r.esg_score = some (a * 0.5 + b * 0.3 + c * 0.2) := by
  refine ⟨_, _, _, _, rfl, rfl, rfl, rfl, ?_⟩
  exact esg_composite dfW 0 _ rfl _ _ _ rfl rfl rfl

/-- C4 counterexample: on the empty batch (the seven engine columns present,
zero records) the scoring engine returns the empty scored table — a scored
result, not an error.  The source `compute_esg_scores` contains no raise
statement and no InputError anywhere in the repository; every pandas
operation it performs is total on an empty frame, so the embedding is a
total function and its value on the empty batch is `[]`. -/
theorem compute_esg_scores_empty_batch :
    compute_esg_scores
      { cols := ["emissions_per_ha", "n_per_ha", "pesticide_use_rate",
          "labour_hours_per_ha", "sfi_soil_compliance_rate",
          "sfi_nutrient_compliance_rate", "sfi_hedgerow_compliance_rate"],
        rows := [] } = [] := rfl

/-- C4 as amended: on an empty batch the engine does not fail at all — it
returns the empty scored table, whatever columns are declared. -/
theorem compute_esg_scores_empty_returns_empty (cols : List String) :
    compute_esg_scores { cols := cols, rows := [] } = [] := by
  simp [compute_esg_scores]

/-- The two-record batch of the C7 analysis: the emissions column holds one
value and one NaN (so it has a single distinct non-missing value), while
the other engine columns vary. -/
def df7 : DF :=
  { cols := ["emissions_per_ha", "n_per_ha", "pesticide_use_rate",
      "labour_hours_per_ha", "sfi_soil_compliance_rate",
      "sfi_nutrient_compliance_rate", "sfi_hedgerow_compliance_rate"],
    rows := [[("emissions_per_ha", some 100), ("n_per_ha", some 10),
      ("pesticide_use_rate", some 0), ("labour_hours_per_ha", some 1),
      ("sfi_soil_compliance_rate", some 0), ("sfi_nutrient_compliance_rate", some 0),
      ("sfi_hedgerow_compliance_rate", some 0)],
      [("emissions_per_ha", none), ("n_per_ha", some 20),
      ("pesticide_use_rate", some 1), ("labour_hours_per_ha", some 2),
      ("sfi_soil_compliance_rate", some 1), ("sfi_nutrient_compliance_rate", some 1),
      ("sfi_hedgerow_compliance_rate", some 1)]] }

/-- C7 counterexample: in `df7` the second record's `emissions_per_ha`
value is missing, yet the neutral-50 branch (the emissions column has a
single distinct non-missing value) assigns that record a 50 for the metric,
and the Environment pillar mean includes it: the engine computes
E = (50 + 0 + 0) / 3 = 50/3, whereas the mean over only the record's
available metrics is (0 + 0) / 2 = 0.  So a record's own missing metric
value can be defaulted to 50 inside its pillar average. -/
theorem missing_metric_neutral_included :
    ((compute_esg_scores df7).get? 1).map (fun r => r.e_score) =
        some (pillar_score_at df7 (env_metrics df7) 1) ∧
      pillar_score_at df7 (env_metrics df7) 1 = some (50 / 3) ∧
      claim_avail_pillar df7 (env_metrics df7) 1 = some 0 ∧
      ((50 : ℚ) / 3) ≠ 0 := by
  have hem : (percentile_score (df7.col "emissions_per_ha") false).getD 1 none =
      some 50 := by decide
  have hn : (percentile_score (df7.col "n_per_ha") false).getD 1 none = some 0 :=
    entry_lower_max (v := (20 : ℚ)) (by decide) (by decide) (by decide) (by decide)
  have hp : (percentile_score (df7.col "pesticide_use_rate") false).getD 1 none =
      some 0 :=
    entry_lower_max (v := (1 : ℚ)) (by decide) (by decide) (by decide) (by decide)
  refine ⟨rfl, ?_, ?_, by norm_num⟩
  · rw [pillar_score_at, show env_metrics df7 = [("emissions_per_ha", false),
      ("n_per_ha", false), ("pesticide_use_rate", false)] from rfl]
    simp only [List.map_cons, List.map_nil]
    rw [hem, hn, hp, row_mean]
    rw [show List.filterMap id [some (50 : ℚ), some 0, some 0] = [50, 0, 0] from rfl]
    norm_num
  · rw [claim_avail_pillar, show (env_metrics df7).filter
        (fun m => ((df7.col m.1).getD 1 none).isSome) =
        [("n_per_ha", false), ("pesticide_use_rate", false)] from by decide]
    simp only [List.map_cons, List.map_nil]
    rw [hn, hp, row_mean]
    rw [show List.filterMap id [some (0 : ℚ), some 0] = [0, 0] from rfl]
    norm_num

theorem row_mean_congr {xs ys : List (Option ℚ)}
    (h : xs.filterMap id = ys.filterMap id) : row_mean xs = row_mean ys := by
  rw [row_mean, row_mean, h]

theorem filterMap_id_map_filter {α β : Type _} (f : α → Option β) (p : α → Bool)
    (l : List α) (h : ∀ a ∈ l, f a = none ↔ p a = false) :
    ((l.filter p).map f).filterMap id = (l.map f).filterMap id := by
  induction l with
  | nil => rfl
  | cons a t ih =>
    have ha := h a (List.mem_cons_self a t)
    have ht := ih (fun x hx => h x (List.mem_cons_of_mem a hx))
    rw [List.filter_cons]
    cases hfa : f a with
    | none =>
      rw [ha.mp hfa]
      simp [List.filterMap_cons, hfa, ht]
    | some b =>
      have hpa : p a = true := by
        cases hpc : p a
        · exact absurd (ha.mpr hpc) (by simp [hfa])
        · rfl
      rw [hpa]
      simp [List.filterMap_cons, hfa, ht]

/-- C7 as amended: a record's own missing metric value is excluded from its
pillar average exactly when every metric column of the pillar has at least
two distinct non-missing values; under that proviso the pillar score is the
unweighted mean of only the record's available per-metric percentile scores
(otherwise the no-variation branch substitutes the neutral 50 for every
record of the column, missing values included). -/
theorem pillar_mean_available (df : DF) (ms : List (String × Bool)) (i : ℕ)
    (h : ∀ m ∈ ms, 2 ≤ nunique (df.col m.1)) :
    pillar_score_at df ms i = claim_avail_pillar df ms i := by
  rw [pillar_score_at, claim_avail_pillar]
  refine (row_mean_congr (filterMap_id_map_filter _ _ ms ?_)).symm
  intro m hm
  rw [percentile_entry (df.col m.1) m.2 i (h m hm)]
  cases (df.col m.1).getD i none <;> simp

/-- A two-record batch whose seven engine columns each hold two distinct
values. -/
def dfV : DF :=
  { cols := ["emissions_per_ha", "n_per_ha", "pesticide_use_rate",
      "labour_hours_per_ha", "sfi_soil_compliance_rate",
      "sfi_nutrient_compliance_rate", "sfi_hedgerow_compliance_rate"],
    rows := [[("emissions_per_ha", some 100), ("n_per_ha", some 10),
      ("pesticide_use_rate", some 0), ("labour_hours_per_ha", some 1),
      ("sfi_soil_compliance_rate", some 0), ("sfi_nutrient_compliance_rate", some 0),
      ("sfi_hedgerow_compliance_rate", some 0)],
      [("emissions_per_ha", some 200), ("n_per_ha", some 20),
      ("pesticide_use_rate", some 1), ("labour_hours_per_ha", some 2),
      ("sfi_soil_compliance_rate", some 1), ("sfi_nutrient_compliance_rate", some 1),
      ("sfi_hedgerow_compliance_rate", some 1)]] }

theorem pillar_mean_available_witness :
    pillar_score_at dfV (env_metrics dfV) 0 = claim_avail_pillar dfV (env_metrics dfV) 0 :=
  pillar_mean_available dfV (env_metrics dfV) 0 (by decide)

/-! Helpers for reasoning about the Except-valued KPI computations. -/

theorem except_bind_ok_iff {ε α β : Type _} (x : Except ε α) (f : α → Except ε β) (b : β) :
    (x >>= f) = .ok b ↔ ∃ a, x = .ok a ∧ f a = .ok b := by
  cases x with
  | error e =>
    constructor
    · intro h; exact absurd h (by simp [Bind.bind, Except.bind])
    · rintro ⟨a, ha, -⟩; exact absurd ha (by simp)
  | ok a =>
    constructor
    · intro h; exact ⟨a, rfl, h⟩
    · rintro ⟨a2, ha, hf⟩
      cases ha
      exact hf

theorem except_pure_eq {ε α : Type _} (a : α) : (pure a : Except ε α) = .ok a := rfl

theorem cellDiv_nan_right_ok {x c : Cell} (h : cellDiv x .nan = .ok c) : c = .nan := by
  cases x <;> simp [cellDiv] at h <;> exact h.symm

/-- The record of the C5 analysis: fertilizer and electricity present,
diesel missing, everything else numeric. -/
def r5case : InRow :=
  { area_ha := .num 2, yield_tonnes := .num 3, fertilizer_n_kg := .num 10,
    diesel_litres := .nan, electricity_kwh := .num 4, water_m3 := .num 5,
    workers_total := .num 6, workers_female := .num 2, accidents_count := .num 1 }

/-- C5 counterexample: for the record `r5case` (fertilizer 10 kg,
electricity 4 kWh, diesel missing) the pandas sum
`emissions_fertilizer + emissions_diesel + emissions_electric` propagates
the missing component, so `total_emissions` is NaN — not the partial total
57 = 10 * 5.5 + 0 + 4 * 0.5 that treating the missing component as zero
would give. -/
theorem total_emissions_missing_component :
    (compute_kpis_row r5case).map (fun k => k.total_emissions) = .ok Cell.nan ∧
      spec_total_emissions r5case = 57 ∧ Cell.nan ≠ Cell.num 57 := by
  refine ⟨rfl, ?_, by simp⟩
  norm_num [spec_total_emissions, r5case, EF_N, EF_DIESEL, EF_ELEC]

/-- C5 as amended: `total_emissions` equals the sum of the three emission
components whenever all three activity inputs are present; a missing
component makes the total itself missing (NaN propagates through the sum),
so no partial total is ever produced. -/
theorem total_emissions_all_present (r : InRow) (k : KpiRow) (x y z : ℚ)
    (hk : compute_kpis_row r = .ok k)
    (hx : r.fertilizer_n_kg = .num x) (hy : r.diesel_litres = .num y)
    (hz : r.electricity_kwh = .num z) :
    k.total_emissions = .num (x * EF_N + y * EF_DIESEL + z * EF_ELEC) := by
  rw [compute_kpis_row, hx, hy, hz] at hk
  simp only [except_bind_ok_iff, except_pure_eq, Except.ok.injEq] at hk
  obtain ⟨v1, h1, v2, h2, v3, h3, v4, h4, v5, h5, v6, h6, v7, h7, v8, h8,
    v9, h9, v10, h10, v11, h11, v12, h12, v13, h13, hk⟩ := hk
  simp only [cellMul, Except.ok.injEq] at h4 h5 h6
  subst h4; subst h5; subst h6
  simp only [cellAdd, Except.ok.injEq] at h7
  subst h7
  simp only [cellAdd, Except.ok.injEq] at h8
  subst h8
  subst hk
  rfl

/-- A fully numeric record. -/
def rW : InRow :=
  { area_ha := .num 2, yield_tonnes := .num 5, fertilizer_n_kg := .num 10,
    diesel_litres := .num 3, electricity_kwh := .num 4, water_m3 := .num 20,
    workers_total := .num 10, workers_female := .num 4, accidents_count := .num 1 }

theorem total_emissions_all_present_witness :
    ∃ k, compute_kpis_row rW = .ok k ∧
      k.total_emissions = .num (10 * EF_N + 3 * EF_DIESEL + 4 * EF_ELEC) := by
  refine ⟨_, rfl, ?_⟩
  exact total_emissions_all_present rW _ 10 3 4 rfl rfl rfl rfl

/-- C6: a record whose area field is exactly 0 gets NaN — not zero and not
an error — for every area-denominated ratio of both KPI calculators
(`yield_per_ha`, `n_per_ha`, `emissions_per_ha` of the dashboard variant;
`n_per_ha`, `p_per_ha`, `k_per_ha`, `emissions_per_ha`,
`labour_hours_per_ha` of the field-level variant), because the exact zero
is replaced by NaN before being used as a divisor. -/
theorem area_zero_ratios (r : InRow) (f : FieldRow) (k : KpiRow) (g : FieldKpiRow)
    (hra : r.area_ha = .num 0) (hk : compute_kpis_row r = .ok k)
    (hfa : f.field_area_ha = .num 0) (hg : compute_kpis_field_row f = .ok g) :
    k.yield_per_ha = .nan ∧ k.n_per_ha = .nan ∧ k.emissions_per_ha = .nan ∧
      g.n_per_ha = .nan ∧ g.p_per_ha = .nan ∧ g.k_per_ha = .nan ∧
      g.emissions_per_ha = .nan ∧ g.labour_hours_per_ha = .nan := by
  rw [compute_kpis_row, hra, show zeroToNan (.num 0) = .nan from rfl] at hk
  simp only [except_bind_ok_iff, except_pure_eq, Except.ok.injEq] at hk
  obtain ⟨v1, h1, v2, h2, v3, h3, v4, h4, v5, h5, v6, h6, v7, h7, v8, h8,
    v9, h9, v10, h10, v11, h11, v12, h12, v13, h13, hk⟩ := hk
  rw [compute_kpis_field_row, hfa, show zeroToNan (.num 0) = .nan from rfl] at hg
  simp only [except_bind_ok_iff, except_pure_eq, Except.ok.injEq] at hg
  obtain ⟨w1, e1, w2, e2, w3, e3, w4, e4, w5, e5, w6, e6, w7, e7, w8, e8, hg⟩ := hg
  subst hk
  subst hg
  exact ⟨cellDiv_nan_right_ok h1, cellDiv_nan_right_ok h2, cellDiv_nan_right_ok h10,
    cellDiv_nan_right_ok e1, cellDiv_nan_right_ok e2, cellDiv_nan_right_ok e3,
    cellDiv_nan_right_ok e7, cellDiv_nan_right_ok e8⟩

/-- `rW` with an exactly-zero area. -/
def r0area : InRow :=
  { area_ha := .num 0, yield_tonnes := .num 5, fertilizer_n_kg := .num 10,
    diesel_litres := .num 3, electricity_kwh := .num 4, water_m3 := .num 20,
    workers_total := .num 10, workers_female := .num 4, accidents_count := .num 1 }

/-- A field-level record with an exactly-zero area. -/
def f0area : FieldRow :=
  { field_area_ha := .num 0, fertiliser_kgN := .num 10, fertiliser_kgP2O5 := .num 5,
    fertiliser_kgK2O := .num 5, diesel_litres := .num 3, labour_hours := .num 8 }

theorem area_zero_ratios_witness :
    ∃ k g, compute_kpis_row r0area = .ok k ∧ compute_kpis_field_row f0area = .ok g ∧
      k.yield_per_ha = .nan ∧ k.n_per_ha = .nan ∧ k.emissions_per_ha = .nan ∧
      g.n_per_ha = .nan ∧ g.p_per_ha = .nan ∧ g.k_per_ha = .nan ∧
      g.emissions_per_ha = .nan ∧ g.labour_hours_per_ha = .nan := by
  refine ⟨_, _, rfl, rfl, ?_⟩
  exact area_zero_ratios r0area f0area _ _ rfl rfl rfl rfl

/-- `rW` with a non-numeric string in the fertilizer column. -/
def rBad : InRow :=
  { area_ha := .num 2, yield_tonnes := .num 5, fertilizer_n_kg := .strv "abc",
    diesel_litres := .num 3, electricity_kwh := .num 4, water_m3 := .num 20,
    workers_total := .num 10, workers_female := .num 4, accidents_count := .num 1 }

/-- C8 counterexample: a batch holding one well-formed record and one record
with the non-numeric string "abc" in its fertilizer column makes the KPI
calculator raise a TypeError for the whole batch — there is no per-cell
coercion to NaN anywhere in the source, and the well-formed record does not
complete either. -/
theorem kpi_malformed_cell_raises :
    compute_kpis [rW, rBad] = .error "TypeError" := rfl

theorem cellDiv_ok_left {a b c : Cell} (h : cellDiv a b = .ok c) (s : String) :
    a ≠ .strv s := by
  intro heq
  rw [heq] at h
  cases b <;> simp [cellDiv] at h

theorem cellDiv_ok_right {a b c : Cell} (h : cellDiv a b = .ok c) (s : String) :
    b ≠ .strv s := by
  intro heq
  rw [heq] at h
  cases a <;> simp [cellDiv] at h

theorem cellMul_ok_str {a c : Cell} {k : ℚ} (h : cellMul a k = .ok c) (s : String) :
    a ≠ .strv s := by
  intro heq
  rw [heq] at h
  simp [cellMul] at h

/-- The nine required numeric fields of a record, in schema order. -/
def InRow.numericCells (r : InRow) : List Cell :=
  [r.area_ha, r.yield_tonnes, r.fertilizer_n_kg, r.diesel_litres, r.electricity_kwh,
    r.water_m3, r.workers_total, r.workers_female, r.accidents_count]

theorem row_error_of_str_cell (r : InRow) (s : String)
    (hmem : Cell.strv s ∈ r.numericCells) : ∃ e, compute_kpis_row r = .error e := by
  cases hk : compute_kpis_row r with
  | error e => exact ⟨e, rfl⟩
  | ok k =>
    exfalso
    rw [compute_kpis_row] at hk
    simp only [except_bind_ok_iff, except_pure_eq, Except.ok.injEq] at hk
    obtain ⟨v1, h1, v2, h2, v3, h3, v4, h4, v5, h5, v6, h6, v7, h7, v8, h8,
      v9, h9, v10, h10, v11, h11, v12, h12, v13, h13, hk⟩ := hk
    simp only [InRow.numericCells, List.mem_cons, List.not_mem_nil, or_false] at hmem
    rcases hmem with hc | hc | hc | hc | hc | hc | hc | hc | hc
    · exact cellDiv_ok_right h1 s (by rw [← hc] <;> rfl)
    · exact cellDiv_ok_left h1 s (by rw [← hc] <;> rfl)
    · exact cellDiv_ok_left h2 s (by rw [← hc] <;> rfl)
    · exact cellMul_ok_str h5 s (by rw [← hc] <;> rfl)
    · exact cellMul_ok_str h6 s (by rw [← hc] <;> rfl)
    · exact cellDiv_ok_left h3 s (by rw [← hc] <;> rfl)
    · exact cellDiv_ok_right h11 s (by rw [← hc] <;> rfl)
    · exact cellDiv_ok_left h11 s (by rw [← hc] <;> rfl)
    · exact cellDiv_ok_left h12 s (by rw [← hc] <;> rfl)

theorem compute_kpis_error_of_mem (rows : List InRow) (r : InRow)
    (hmem : r ∈ rows) (hr : ∃ e, compute_kpis_row r = .error e) :
    ∃ e, compute_kpis rows = .error e := by
  induction rows with
  | nil => cases hmem
  | cons a t ih =>
    rw [compute_kpis]
    rcases List.mem_cons.mp hmem with rfl | hmt
    · obtain ⟨e, he⟩ := hr
      exact ⟨e, by rw [he]; rfl⟩
    · cases ha : compute_kpis_row a with
      | error e => exact ⟨e, rfl⟩
      | ok k =>
        obtain ⟨e, he⟩ := ih hmt
        refine ⟨e, ?_⟩
        show (compute_kpis t >>= _) = Except.error e
        rw [he]
        rfl

/-- C8 as amended: a non-numeric string in any of the nine required numeric
fields of any record makes the whole KPI computation fail with an error —
the calculator raises instead of coercing the cell to NaN, and no record of
the batch completes. -/
theorem kpi_malformed_cell_aborts (rows : List InRow) (r : InRow) (s : String)
    (hmem : r ∈ rows) (hcell : Cell.strv s ∈ r.numericCells) :
    ∃ e, compute_kpis rows = .error e :=
  compute_kpis_error_of_mem rows r hmem (row_error_of_str_cell r s hcell)

theorem kpi_malformed_cell_aborts_witness :
    ∃ e, compute_kpis [rW, rBad] = .error e :=
  kpi_malformed_cell_aborts [rW, rBad] rBad "abc"
    (List.mem_cons_of_mem rW (List.mem_cons_self rBad [])) (by decide)

/-- C9: for a row whose certification cell holds a string, the governance
score is the fixed ordinal tier determined by case-insensitive substring
matching alone — never percentile-ranked against the batch: a string
containing "organic" or "leaf" scores 100; otherwise one containing "red"
scores 80; otherwise anything other than "none" scores 60; and "none"
scores 40. -/
theorem gov_certification_tiers (s : String) :
    ((strHas (pyLower s) "organic" || strHas (pyLower s) "leaf") = true →
        row_gov_score (.strv s) = 100) ∧
      ((strHas (pyLower s) "organic" || strHas (pyLower s) "leaf") = false →
        strHas (pyLower s) "red" = true → row_gov_score (.strv s) = 80) ∧
      ((strHas (pyLower s) "organic" || strHas (pyLower s) "leaf") = false →
        strHas (pyLower s) "red" = false → pyLower s ≠ "none".toList →
        row_gov_score (.strv s) = 60) ∧
      ((strHas (pyLower s) "organic" || strHas (pyLower s) "leaf") = false →
        strHas (pyLower s) "red" = false → pyLower s = "none".toList →
        row_gov_score (.strv s) = 40) := by
  refine ⟨?_, ?_, ?_, ?_⟩
  · intro h1
    simp [row_gov_score, cert_str, gov_score_of, h1]
  · intro h1 h2
    simp [row_gov_score, cert_str, gov_score_of, h1, h2]
  · intro h1 h2 h3
    simp [row_gov_score, cert_str, gov_score_of, h1, h2]
    exact h3
  · intro h1 h2 h3
    simp [row_gov_score, cert_str, gov_score_of, h1, h2, h3]
    decide

theorem gov_certification_tiers_witness :
    row_gov_score (.strv "Organic") = 100 :=
  (gov_certification_tiers "Organic").1 (by decide)

/-- C10: a present-but-missing (NaN) certification cell stringifies to
"nan", which is non-empty and differs from "none", so it lands in the
any-other-scheme tier and scores 60 — not the baseline 40; the baseline 40
is reached exactly when the column is absent from the row (the `row.get`
default "None") or the cell holds the literal string "None" in any
casing. -/
theorem gov_nan_cell_scores_60 :
    row_gov_score .nanv = 60 ∧
      ∀ c : CertCell, (row_gov_score c = 40 ↔
        (c = .absent ∨ ∃ s, c = .strv s ∧ pyLower s = "none".toList)) := by
  refine ⟨by decide, ?_⟩
  intro c
  cases c with
  | absent => exact ⟨fun _ => Or.inl rfl, fun _ => by decide⟩
  | nanv =>
    refine ⟨fun h => absurd h (by decide), fun h => ?_⟩
    rcases h with h | ⟨s, h, -⟩ <;> cases h
  | strv s =>
    have hrhs : (CertCell.strv s = .absent ∨
        ∃ t, CertCell.strv s = .strv t ∧ pyLower t = "none".toList) ↔
        pyLower s = "none".toList := by
      simp [CertCell.strv.injEq]
    rw [hrhs]
    simp only [row_gov_score, cert_str, gov_score_of]
    split_ifs with h1 h2 h3
    · refine ⟨fun h => absurd h (by norm_num), fun h => ?_⟩
      rw [h] at h1
      exact absurd h1 (by decide)
    · refine ⟨fun h => absurd h (by norm_num), fun h => ?_⟩
      rw [h] at h2
      exact absurd h2 (by decide)
    · exact ⟨fun h => absurd h (by norm_num), fun h => absurd h h3⟩
    · exact ⟨fun _ => not_ne_iff.mp h3, fun _ => rfl⟩
